import Mathlib

/-!
Shallow embedding of the GitOps sync service of the repository
(src/gitops/sync-service/sync.js, plus the legacy variant of the same
service kept at src/unnamed/part_004), together with theorems settling
the specification claims about it.

Conventions of the embedding:
* JavaScript strings become Lean `String`; machine integers become `Nat`
  (all delay arithmetic in the source is on non-negative integer
  milliseconds with the defaults in play).
* Promise-returning functions that can reject become `Except String`
  values or are modelled by an explicit outcome environment (`SyncEnv`,
  `CycleEnv`) that records, for each external subprocess, whether it
  succeeded — the subprocess itself is external to the program.
* Each `spawn`/`exec` call site is reified as a `SpawnCall` value
  recording the spawn mode (argv vector vs shell string), the program
  and the argument vector, exactly as the source builds them.
-/

deriving instance DecidableEq for Except

namespace GitOpsSync

/-! ## Input validator (src/gitops/sync-service/sync.js, `InputValidator`) -/

/-- A character matched by `[a-z0-9]`. -/
def isLowerAlnum (c : Char) : Bool :=
  (('a' ≤ c && c ≤ 'z') || ('0' ≤ c && c ≤ '9'))

/-- A character matched by `[-a-z0-9]`. -/
def isK8sChar (c : Char) : Bool :=
  isLowerAlnum c || c = '-'

/-- `InputValidator.isValidK8sName`: the regex
`^[a-z0-9]([-a-z0-9]*[a-z0-9])?$` together with `name.length <= 253`.
The regex language is exactly: non-empty, every char in `[-a-z0-9]`,
first and last char in `[a-z0-9]`. -/
def isValidK8sName (name : String) : Bool :=
  let cs := name.toList
  (!cs.isEmpty) && isLowerAlnum (cs.headD '-') && isLowerAlnum (cs.getLastD '-')
    && cs.all isK8sChar && decide (name.length ≤ 253)

/-- A character matched by `[a-zA-Z0-9/_.-]`. -/
def isBranchChar (c : Char) : Bool :=
  (('a' ≤ c && c ≤ 'z') || ('A' ≤ c && c ≤ 'Z') || ('0' ≤ c && c ≤ '9')
    || c = '/' || c = '_' || c = '.' || c = '-')

/-- JavaScript `s.includes('..')`: substring containment of the
two-character needle, i.e. two adjacent dots somewhere in `s`. -/
def containsDotDot (s : String) : Bool :=
  (s.toList.zip s.toList.tail).any (fun p => p.1 = '.' && p.2 = '.')

/-- `InputValidator.isValidBranchName`: regex `^[a-zA-Z0-9/_.-]+$`,
length at most 255, and no `..` substring. -/
def isValidBranchName (branch : String) : Bool :=
  (!branch.toList.isEmpty) && branch.toList.all isBranchChar
    && decide (branch.length ≤ 255) && !containsDotDot branch

/-- `s.startsWith('/')`, via the character list (the byte-position
implementation of `String.startsWith` does not reduce in the kernel). -/
def startsWithSlash (s : String) : Bool :=
  match s.toList with
  | [] => false
  | c :: _ => c = '/'

/-- Splitting a character list on `/`; `acc` holds the current segment
reversed.  Mirrors `s.split('/')` / Lean's `String.splitOn "/"`. -/
def splitCharsOnSlash (acc : List Char) : List Char → List String
  | [] => [String.mk acc.reverse]
  | c :: cs =>
    if c = '/' then String.mk acc.reverse :: splitCharsOnSlash [] cs
    else splitCharsOnSlash (c :: acc) cs

/-- `s.split('/')` as used by path normalization. -/
def splitSlash (s : String) : List String :=
  splitCharsOnSlash [] s.toList

/-- One step of POSIX path normalization over already-split segments
(Node `path.normalize`): empty and `.` segments are dropped, `..` pops a
previous real segment, and otherwise accumulates leading `..` segments
(`allowUp` is false for absolute paths, where `..` at the root is
dropped).  `acc` holds the processed segments in reverse. -/
def normSegs (allowUp : Bool) (acc : List String) : List String → List String
  | [] => acc.reverse
  | seg :: rest =>
    if seg = "" ∨ seg = "." then normSegs allowUp acc rest
    else if seg = ".." then
      match acc with
      | [] => normSegs allowUp (if allowUp then [".."] else []) rest
      | a :: tl =>
        if a = ".." then normSegs allowUp (".." :: a :: tl) rest
        else normSegs allowUp tl rest
    else normSegs allowUp (seg :: acc) rest

/-- Node `path.normalize` for POSIX paths (trailing-slash preservation,
which is irrelevant to `..`-detection and to a leading slash, is not
modelled). -/
def normalizePath (p : String) : String :=
  let isAbs := startsWithSlash p
  let segs := normSegs (!isAbs) [] (splitSlash p)
  let body := String.intercalate "/" segs
  if isAbs then "/" ++ body
  else if body = "" then "." else body

/-- `InputValidator.isValidPath`: normalize, then reject a `..`
substring or a leading `/`. -/
def isValidPath (pathStr : String) : Bool :=
  let normalized := normalizePath pathStr
  !containsDotDot normalized && !startsWithSlash normalized

/-- `InputValidator.validate(value, type, fieldName)`: returns the value
or throws (here: `Except.error`) with the source's message.  An empty
string is falsy in JavaScript, hence the first guard. -/
def validate (value : String) (kind fieldName : String) : Except String String :=
  if value = "" then
    .error ("Invalid " ++ fieldName ++ ": must be a non-empty string")
  else if kind = "k8sName" then
    if isValidK8sName value then .ok value
    else .error ("Invalid " ++ fieldName ++ ": \"" ++ value
      ++ "\" - must match Kubernetes naming conventions (lowercase alphanumeric and hyphens only)")
  else if kind = "branch" then
    if isValidBranchName value then .ok value
    else .error ("Invalid " ++ fieldName ++ ": \"" ++ value
      ++ "\" - contains invalid characters or path traversal")
  else if kind = "path" then
    if isValidPath value then .ok value
    else .error ("Invalid " ++ fieldName ++ ": \"" ++ value
      ++ "\" - contains path traversal or absolute path")
  else .error ("Unknown validation type: " ++ kind)

/-! ## Configuration data model (config.yaml as loaded by `loadConfig`) -/

/-- One entry of `config.applications`.  The `namespace` field is named
`namespace_` because `namespace` is a Lean keyword. -/
structure Application where
  name : String
  namespace_ : String
  path : String
  valueFiles : List String
  enabled : Bool
  autoSync : Bool
deriving Repr, DecidableEq

/-- `config.healthCheck`.  Optional fields keep their raw value so that
the JavaScript `x || default` semantics (0 is falsy) can be modelled. -/
structure HealthCheckConfig where
  enabled : Bool
  retries : Nat
  initialDelay : Option Nat
  backoffFactor : Option Nat
  maxDelay : Option Nat
deriving Repr, DecidableEq

/-- `config.sync`. -/
structure SyncConfig where
  interval : String
  concurrency : Option Nat
  autoRollback : Bool
  dryRun : Bool
deriving Repr, DecidableEq

/-- `config.git`. -/
structure GitConfig where
  repository : String
  branch : String
deriving Repr, DecidableEq

/-- The whole loaded configuration object. -/
structure Config where
  git : GitConfig
  sync : SyncConfig
  healthCheck : HealthCheckConfig
  applications : List Application
deriving Repr, DecidableEq

/-- JavaScript `v || d` on an optional numeric config field: `undefined`
and `0` both fall back to the default. -/
def orDefault (v : Option Nat) (d : Nat) : Nat :=
  match v with
  | none => d
  | some n => if n = 0 then d else n

/-! ## Config loading (`loadConfig`) -/

/-- The per-application validation block of `loadConfig`, including the
wrapping of the first failure into the
`Configuration validation failed for application at index i” message. -/
def validateApp (idx : Nat) (app : Application) : Except String Unit :=
  let fld := fun (s : String) => "applications[" ++ toString idx ++ "]." ++ s
  let wrap := fun (e : String) =>
    "Configuration validation failed for application at index " ++ toString idx ++ ": " ++ e
  match validate app.name "k8sName" (fld "name") with
  | .error e => .error (wrap e)
  | .ok _ =>
    match validate app.namespace_ "k8sName" (fld "namespace") with
    | .error e => .error (wrap e)
    | .ok _ =>
      match validate app.path "path" (fld "path") with
      | .error e => .error (wrap e)
      | .ok _ => .ok ()

/-- `config.applications.forEach((app, index) => ...)` with the first
thrown error aborting the load. -/
def validateApps : Nat → List Application → Except String Unit
  | _, [] => .ok ()
  | idx, app :: rest =>
    match validateApp idx app with
    | .error e => .error e
    | .ok _ => validateApps (idx + 1) rest

/-- `loadConfig` after the YAML parse: validates `git.branch`, then every
application's `name`, `namespace` and `path`; on success the config is
installed (returned). -/
def loadConfig (config : Config) : Except String Config :=
  match validate config.git.branch "branch" "git.branch" with
  | .error e => .error e
  | .ok _ =>
    match validateApps 0 config.applications with
    | .error e => .error e
    | .ok _ => .ok config

/-! ## Subprocess call sites -/

/-- How a child process is launched: `spawn(cmd, args)` with an argv
vector (no shell), or `exec(commandString)` through a shell. -/
inductive SpawnMode where
  | argv
  | shell
deriving Repr, DecidableEq

/-- One reified subprocess launch.  For `shell` mode the whole command
string is the `program` and `args` is empty, mirroring
`exec`'s single-string interface. -/
structure SpawnCall where
  mode : SpawnMode
  program : String
  args : List String
deriving Repr, DecidableEq

/-- `this.repoPath` (constructor constant). -/
def repoPath : String := "/tmp/gitops-repo"

/-- Node `path.join(a, b)` for POSIX: concatenate with a separator and
normalize. -/
def pathJoin (a b : String) : String :=
  normalizePath (a ++ "/" ++ b)

/-- `cloneRepository`: `spawn('git', ['clone', repo, repoPath])`. -/
def gitCloneCall (cfg : Config) : SpawnCall :=
  ⟨.argv, "git", ["clone", cfg.git.repository, repoPath]⟩

/-- `cloneRepository`: `spawn('git', ['checkout', branch])`. -/
def gitCheckoutCall (cfg : Config) : SpawnCall :=
  ⟨.argv, "git", ["checkout", cfg.git.branch]⟩

/-- `updateRepository`: `spawn('git', ['fetch', 'origin', branch])`. -/
def gitFetchCall (cfg : Config) : SpawnCall :=
  ⟨.argv, "git", ["fetch", "origin", cfg.git.branch]⟩

/-- `updateRepository`: `spawn('git', ['reset', '--hard', 'origin/' + branch])`. -/
def gitResetCall (cfg : Config) : SpawnCall :=
  ⟨.argv, "git", ["reset", "--hard", "origin/" ++ cfg.git.branch]⟩

/-- `updateRepository`: `spawn('git', ['clean', '-fd'])`. -/
def gitCleanCall : SpawnCall :=
  ⟨.argv, "git", ["clean", "-fd"]⟩

/-- `checkForChanges`: `spawn('git', ['rev-parse', 'HEAD'])`. -/
def gitRevParseCall : SpawnCall :=
  ⟨.argv, "git", ["rev-parse", "HEAD"]⟩

/-- `helmReleaseExists`: `spawn('helm', ['status', name, '-n', namespace])`. -/
def helmStatusCall (app : Application) : SpawnCall :=
  ⟨.argv, "helm", ["status", app.name, "-n", app.namespace_]⟩

/-- The chart path `path.join(this.repoPath, app.path)`. -/
def chartPathOf (app : Application) : String :=
  pathJoin repoPath app.path

/-- The argv built by `helmInstall`:
`['install', name, chartPath, '-n', ns]`, one `-f file` pair per value
file, `--dry-run` when configured, then `--create-namespace --wait`. -/
def helmInstallArgs (app : Application) (chartPath : String) (dryRun : Bool) : List String :=
  ["install", app.name, chartPath, "-n", app.namespace_]
    ++ app.valueFiles.flatMap (fun f => ["-f", pathJoin chartPath f])
    ++ (if dryRun then ["--dry-run"] else [])
    ++ ["--create-namespace", "--wait"]

/-- The argv built by `helmUpgrade` (no `--create-namespace`). -/
def helmUpgradeArgs (app : Application) (chartPath : String) (dryRun : Bool) : List String :=
  ["upgrade", app.name, chartPath, "-n", app.namespace_]
    ++ app.valueFiles.flatMap (fun f => ["-f", pathJoin chartPath f])
    ++ (if dryRun then ["--dry-run"] else [])
    ++ ["--wait"]

/-- `helmInstall`'s subprocess launch. -/
def helmInstallCall (app : Application) (chartPath : String) (dryRun : Bool) : SpawnCall :=
  ⟨.argv, "helm", helmInstallArgs app chartPath dryRun⟩

/-- `helmUpgrade`'s subprocess launch. -/
def helmUpgradeCall (app : Application) (chartPath : String) (dryRun : Bool) : SpawnCall :=
  ⟨.argv, "helm", helmUpgradeArgs app chartPath dryRun⟩

/-- `rollback`: `spawn('helm', ['rollback', name, '-n', ns, '--wait'])`. -/
def helmRollbackCall (app : Application) : SpawnCall :=
  ⟨.argv, "helm", ["rollback", app.name, "-n", app.namespace_, "--wait"]⟩

/-- `healthCheck`: the `kubectl wait` launch (per attempt). -/
def kubectlWaitCall (app : Application) : SpawnCall :=
  ⟨.argv, "kubectl",
    ["wait", "--for=condition=Available", "deployment", "-n", app.namespace_,
     "-l", "app=" ++ app.name, "--timeout=30s"]⟩

/-- Every `spawnCommand` call site of src/gitops/sync-service/sync.js,
with the argv each site builds. -/
def syncJsSpawnCalls (cfg : Config) (app : Application) : List SpawnCall :=
  [gitCloneCall cfg, gitCheckoutCall cfg, gitFetchCall cfg, gitResetCall cfg,
   gitCleanCall, gitRevParseCall, helmStatusCall app,
   helmInstallCall app (chartPathOf app) cfg.sync.dryRun,
   helmUpgradeCall app (chartPathOf app) cfg.sync.dryRun,
   helmRollbackCall app, kubectlWaitCall app]

/-! ## The legacy sync-service variant (src/unnamed/part_004)

That file launches git and helm through `execAsync` on command strings
built by template-literal concatenation of configuration values. -/

/-- `helmInstall` of src/unnamed/part_004, lines 318-329: the shell
command string built from the application's fields. -/
def part004HelmInstallCommand (app : Application) (chartPath : String) (dryRun : Bool) : String :=
  "helm install " ++ app.name ++ " " ++ chartPath ++ " -n " ++ app.namespace_ ++ " "
    ++ String.intercalate " " (app.valueFiles.map (fun f => "-f " ++ pathJoin chartPath f))
    ++ " " ++ (if dryRun then "--dry-run" else "") ++ " --create-namespace --wait"

/-- The subprocess launch performed by `helmInstall` of the legacy
variant: `execAsync(command)` hands the whole string to a shell. -/
def part004HelmInstallCall (app : Application) (chartPath : String) (dryRun : Bool) : SpawnCall :=
  ⟨.shell, part004HelmInstallCommand app chartPath dryRun, []⟩

/-! ## Service init (`init` = `loadConfig` + `cloneRepository`) -/

/-- The subprocess launches of `cloneRepository`, depending on whether
`/tmp/gitops-repo` already exists. -/
def cloneRepositorySpawns (cfg : Config) (repoExists : Bool) : List SpawnCall :=
  if repoExists then [gitFetchCall cfg, gitResetCall cfg, gitCleanCall]
  else [gitCloneCall cfg, gitCheckoutCall cfg]

/-- The subprocesses spawned by `init`: none when `loadConfig` throws
(the error propagates to `main`, which exits), otherwise the
`cloneRepository` launches. -/
def initSpawnCalls (cfg : Config) (repoExists : Bool) : List SpawnCall :=
  match loadConfig cfg with
  | .error _ => []
  | .ok c => cloneRepositorySpawns c repoExists

/-! ## Sync results (`SyncResult`, `SyncCycleSummary`)

Wall-clock timestamps (`startTime`, `endTime`, durations) are not
modelled; every other field of the source classes is. -/

/-- One per-application outcome record (`class SyncResult`). -/
structure SyncResult where
  appName : String
  success : Bool
  errorMessage : Option String
  action : Option String
  rolledBack : Bool
deriving Repr, DecidableEq

/-- `new SyncResult(appName)`. -/
def SyncResult.new (appName : String) : SyncResult :=
  ⟨appName, false, none, none, false⟩

/-- `markSuccess(action)`: sets `success` and `action`, leaves the other
fields. -/
def SyncResult.markSuccess (r : SyncResult) (action : String) : SyncResult :=
  { r with success := true, action := some action }

/-- `markFailure(error, rolledBack)`: records the error and the rollback
flag; note that `action` is left as it stands. -/
def SyncResult.markFailure (r : SyncResult) (msg : String) (rolledBack : Bool) : SyncResult :=
  { r with success := false, errorMessage := some msg, rolledBack := rolledBack }

/-- `class SyncCycleSummary` (timestamps not modelled). -/
structure SyncCycleSummary where
  results : List SyncResult
deriving Repr, DecidableEq

/-- `getSuccessCount`: `results.filter(r => r.success).length`. -/
def SyncCycleSummary.getSuccessCount (s : SyncCycleSummary) : Nat :=
  (s.results.filter (fun r => r.success)).length

/-- `getFailureCount`: `results.filter(r => !r.success).length`. -/
def SyncCycleSummary.getFailureCount (s : SyncCycleSummary) : Nat :=
  (s.results.filter (fun r => !r.success)).length

/-- `getSkippedCount`: `results.filter(r => r.action === 'skip').length`. -/
def SyncCycleSummary.getSkippedCount (s : SyncCycleSummary) : Nat :=
  (s.results.filter (fun r => r.action == some "skip")).length

/-! ## Health check (`healthCheck`) -/

/-- The delay computed between attempts:
`Math.min(initialDelay * Math.pow(backoffFactor, i), maxDelay)`. -/
def healthDelay (d0 f dm i : Nat) : Nat :=
  min (d0 * f ^ i) dm

/-- A run of the health-check retry loop: whether some attempt passed,
the inter-attempt sleep durations in order, and how many `kubectl wait`
attempts were made. -/
structure HealthRun where
  passed : Bool
  sleeps : List Nat
  attempts : Nat
deriving Repr, DecidableEq

/-- The `for (let i = 0; i < maxRetries; i++)` loop of `healthCheck`.
`ok i` tells whether the `kubectl wait` of attempt `i` succeeds; after a
failed attempt `i` with `i < maxRetries - 1` the loop sleeps
`healthDelay d0 f dm i`.  The second `Nat` argument counts the attempts
remaining. -/
def healthLoop (ok : Nat → Bool) (d0 f dm : Nat) (i : Nat) : Nat → HealthRun
  | 0 => ⟨false, [], 0⟩
  | n + 1 =>
    if ok i then ⟨true, [], 1⟩
    else if n = 0 then ⟨false, [], 1⟩
    else
      let r := healthLoop ok d0 f dm (i + 1) n
      ⟨r.passed, healthDelay d0 f dm i :: r.sleeps, r.attempts + 1⟩

/-- `healthCheck`'s retry loop with the source's falsy-or defaults
(`initialDelay || 5000`, `backoffFactor || 2`, `maxDelay || 60000`). -/
def runHealthCheck (hc : HealthCheckConfig) (ok : Nat → Bool) : HealthRun :=
  healthLoop ok (orDefault hc.initialDelay 5000) (orDefault hc.backoffFactor 2)
    (orDefault hc.maxDelay 60000) 0 hc.retries

/-- The error thrown when every attempt failed:
`Health check failed for NAME after N attempts`. -/
def healthErrorMsg (appName : String) (retries : Nat) : String :=
  "Health check failed for " ++ appName ++ " after " ++ toString retries ++ " attempts"

/-- `healthCheck(app)` as a fallible operation: `ok ()` when some
attempt passed, the thrown error otherwise. -/
def healthCheckResult (hc : HealthCheckConfig) (appName : String) (ok : Nat → Bool) :
    Except String Unit :=
  if (runHealthCheck hc ok).passed then .ok ()
  else .error (healthErrorMsg appName hc.retries)

/-! ## Per-application sync (`syncApplication`) -/

/-- Outcomes of the external subprocesses one `syncApplication` run
touches: whether `helm status` exits 0 (release exists), whether the
install/upgrade succeeds and its error message when not, the per-attempt
`kubectl wait` outcomes, and whether `helm rollback` exits 0 (the latter
is recorded here because the claims refer to it, even though the source
ignores it — `rollback` swallows its own error). -/
structure SyncEnv where
  releaseExists : Bool
  actionOk : Bool
  actionErrorMsg : String
  healthOk : Nat → Bool
  rollbackOk : Bool

/-- `syncApplication(app)`: returns the sealed `SyncResult` and the
subprocess launches performed, in order.  Faithful points: the skip
branch touches nothing; `releaseExists` chooses upgrade vs install;
a failure of the action or of the health check falls into the catch
block, where rollback is attempted iff `autoRollback && releaseExists`;
`this.rollback` never throws (it catches internally), so `rolledBack`
is set whenever the rollback was attempted, regardless of the rollback
subprocess's exit. -/
def syncApplication (cfg : Config) (app : Application) (env : SyncEnv) :
    SyncResult × List SpawnCall :=
  let result := SyncResult.new app.name
  if !app.enabled || !app.autoSync then
    (result.markSuccess "skip", [])
  else
    let chartPath := pathJoin repoPath app.path
    let statusCall := helmStatusCall app
    let actionCall :=
      if env.releaseExists then helmUpgradeCall app chartPath cfg.sync.dryRun
      else helmInstallCall app chartPath cfg.sync.dryRun
    let actionName := if env.releaseExists then "upgrade" else "install"
    let doRollback := cfg.sync.autoRollback && env.releaseExists
    let rollbackCalls := if doRollback then [helmRollbackCall app] else []
    if env.actionOk then
      let afterAction := result.markSuccess actionName
      if cfg.healthCheck.enabled then
        let hr := runHealthCheck cfg.healthCheck env.healthOk
        let healthCalls := List.replicate hr.attempts (kubectlWaitCall app)
        if hr.passed then
          (afterAction, statusCall :: actionCall :: healthCalls)
        else
          (afterAction.markFailure (healthErrorMsg app.name cfg.healthCheck.retries) doRollback,
            statusCall :: actionCall :: healthCalls ++ rollbackCalls)
      else
        (afterAction, [statusCall, actionCall])
    else
      (result.markFailure env.actionErrorMsg doRollback,
        statusCall :: actionCall :: rollbackCalls)

/-! ## Engine state and the sync cycle (`checkForChanges`, `syncAll`) -/

/-- The engine fields the cycle reads and writes: `this.lastCommit`
(null initially) and `this.syncInProgress`. -/
structure EngineState where
  lastCommit : Option String
  syncInProgress : Bool
deriving Repr, DecidableEq

/-- JavaScript truthiness of `this.lastCommit` (null and the empty
string are falsy). -/
def optTruthy : Option String → Bool
  | none => false
  | some s => s ≠ ""

/-- Ordered observable events of one `syncAll` cycle: the git refresh,
the `git rev-parse HEAD` read, the write of `this.lastCommit`, the
return of one application's sync task, and the sealing of the summary
(`summary.complete()`). -/
inductive CycleEvent where
  | refresh
  | readHead
  | commitAdvance (commit : String)
  | taskReturn (appName : String)
  | seal
deriving Repr, DecidableEq

/-- Outcomes of the external world for one cycle: whether
`updateRepository` succeeds, the commit `git rev-parse HEAD` reports,
and the subprocess outcomes for the i-th application's sync task. -/
structure CycleEnv where
  refreshOk : Bool
  currentCommit : String
  appEnv : Nat → SyncEnv

/-- `checkForChanges`: returns false without touching state when
`this.lastCommit` is truthy and equals the current commit; otherwise
stores the current commit and returns true. -/
def checkForChanges (st : EngineState) (current : String) : Bool × EngineState :=
  if optTruthy st.lastCommit && st.lastCommit == some current then (false, st)
  else (true, { st with lastCommit := some current })

/-- `syncAll`: one reconciliation cycle.  Returns the engine state after
the cycle, the summary (`none` models the early `return null` when a
sync is already in progress), and the event trace.  Faithful points:
a refresh failure is caught by the outer catch, which completes and
returns the (empty) summary with `lastCommit` untouched; the no-change
branch (`!hasChanges && this.lastCommit`) returns an empty summary; the
changed branch maps `syncApplication` over the applications — the
`lastCommit` write has already happened inside `checkForChanges`, before
any task is dispatched.  (`syncInProgress` is restored by the `finally`
block in every branch, so the returned state keeps its input value.) -/
def syncAll (cfg : Config) (st : EngineState) (env : CycleEnv) :
    EngineState × Option SyncCycleSummary × List CycleEvent :=
  if st.syncInProgress then (st, none, [])
  else if !env.refreshOk then
    (st, some ⟨[]⟩, [CycleEvent.refresh])
  else
    let hc := checkForChanges st env.currentCommit
    let hasChanges := hc.1
    let st1 := hc.2
    if !hasChanges && optTruthy st1.lastCommit then
      (st1, some ⟨[]⟩, [CycleEvent.refresh, CycleEvent.readHead])
    else
      let results := (cfg.applications.enum).map
        (fun p => (syncApplication cfg p.2 (env.appEnv p.1)).1)
      let taskEvents := cfg.applications.map (fun app => CycleEvent.taskReturn app.name)
      (st1, some ⟨results⟩,
        [CycleEvent.refresh, CycleEvent.readHead]
          ++ (if hasChanges then [CycleEvent.commitAdvance env.currentCommit] else [])
          ++ taskEvents ++ [CycleEvent.seal])

/-- Is an event a `commitAdvance`? -/
def isAdvance : CycleEvent → Bool
  | .commitAdvance _ => true
  | _ => false

/-- Is an event a `taskReturn`? -/
def isTaskReturn : CycleEvent → Bool
  | .taskReturn _ => true
  | _ => false

/-- The claim's ordering property: in the trace, every commit advance
comes strictly after every task return (the commit is updated only
after all dispatched sync tasks have returned). -/
def advanceOnlyAfterTasks (tr : List CycleEvent) : Prop :=
  ∀ i j, i < tr.length → j < tr.length →
    isAdvance (tr.getD i .seal) = true → isTaskReturn (tr.getD j .seal) = true → j < i

/-- The code's actual ordering: from the first task return onward, no
commit advance occurs (the commit write precedes all task returns). -/
def noAdvanceFromFirstTask (tr : List CycleEvent) : Prop :=
  ∀ e ∈ tr.dropWhile (fun e => !isTaskReturn e), isAdvance e = false

/-! ## Concrete fixtures used by witnesses and counterexamples -/

/-- The spec's S1 example application. -/
def exApp : Application :=
  ⟨"intervalai", "default", "helm-charts/intervalai", ["values.yaml"], true, true⟩

/-- An application disabled for auto-sync. -/
def exAppOff : Application :=
  ⟨"dashboard", "default", "helm-charts/dashboard", [], true, false⟩

/-- The repository's git block. -/
def exGit : GitConfig :=
  ⟨"https://github.com/maxjeffwell/devops-portfolio-manager.git", "main"⟩

/-- Health-check block with the implicit defaults (3 retries). -/
def exHealthOn : HealthCheckConfig := ⟨true, 3, none, none, none⟩

/-- Disabled health-check block. -/
def exHealthOff : HealthCheckConfig := ⟨false, 3, none, none, none⟩

/-- A plain configuration: no dry-run, no auto-rollback, health checks
off. -/
def exCfgPlain : Config :=
  ⟨exGit, ⟨"60s", none, false, false⟩, exHealthOff, [exApp]⟩

/-- The S5 configuration: an application id of `foo; rm -rf /`. -/
def badNameApp : Application :=
  ⟨"foo; rm -rf /", "default", "helm-charts/intervalai", ["values.yaml"], true, true⟩

/-- Configuration whose only application carries the injection-attempt
name. -/
def badNameCfg : Config :=
  ⟨exGit, ⟨"60s", none, false, false⟩, exHealthOff, [badNameApp]⟩

/-- An application whose `valueFiles` entry escapes the chart directory;
`loadConfig` never validates `valueFiles`. -/
def vfApp : Application :=
  ⟨"intervalai", "default", "helm-charts/intervalai", ["../secrets.yaml"], true, true⟩

/-- Configuration carrying `vfApp`. -/
def vfCfg : Config :=
  ⟨exGit, ⟨"60s", none, false, false⟩, exHealthOff, [vfApp]⟩

/-- Auto-rollback together with dry-run, health checks off (C3's
scenario). -/
def dryRollbackCfg : Config :=
  ⟨exGit, ⟨"60s", none, true, true⟩, exHealthOff, [exApp]⟩

/-- The environment of a failed action on an existing release. -/
def failEnv : SyncEnv :=
  ⟨true, false, "Command helm exited with code 1", fun _ => false, true⟩

/-- Auto-rollback without dry-run, health checks off (C4's scenario). -/
def rollbackCfg : Config :=
  ⟨exGit, ⟨"60s", none, true, false⟩, exHealthOff, [exApp]⟩

/-- Failed upgrade on an existing release whose `helm rollback` also
exits nonzero. -/
def rollbackFailEnv : SyncEnv :=
  ⟨true, false, "Command helm exited with code 1", fun _ => false, false⟩

/-- Dry-run with health checks enabled (C5's scenario). -/
def dryHealthCfg : Config :=
  ⟨exGit, ⟨"60s", none, false, true⟩, exHealthOn, [exApp]⟩

/-- A fully successful environment. -/
def okEnv : SyncEnv :=
  ⟨true, true, "", fun _ => true, true⟩

/-- Engine state with a recorded last commit and no cycle in flight. -/
def stRecorded : EngineState := ⟨some "aaa", false⟩

/-- A cycle environment observing a fresh commit. -/
def changedEnv : CycleEnv := ⟨true, "bbb", fun _ => okEnv⟩

/-- A cycle environment observing the recorded commit again. -/
def unchangedEnv : CycleEnv := ⟨true, "aaa", fun _ => okEnv⟩

/-! ## Helper lemmas -/

/-- Splitting a list by a Boolean predicate partitions its length. -/
theorem filter_split_length {α : Type} (p : α → Bool) (l : List α) :
    (l.filter p).length + (l.filter (fun a => !p a)).length = l.length := by
  induction l with
  | nil => rfl
  | cons a l ih =>
    cases h : p a <;> simp [List.filter_cons, h] <;> omega

/-- A result `syncApplication` seals with `action = skip` is a success:
the only `markSuccess('skip')` is in the skip branch, and `markFailure`
never stores the `skip` action. -/
theorem syncApplication_skip_success (cfg : Config) (app : Application) (env : SyncEnv) :
    ((syncApplication cfg app env).1.action = some "skip") →
      (syncApplication cfg app env).1.success = true := by
  intro h
  cases hen : app.enabled <;> cases has : app.autoSync <;>
    cases hre : env.releaseExists <;> cases hao : env.actionOk <;>
    cases hhe : cfg.healthCheck.enabled <;>
    cases hp : (runHealthCheck cfg.healthCheck env.healthOk).passed <;>
    simp_all [syncApplication, SyncResult.new, SyncResult.markSuccess, SyncResult.markFailure]

/-- The disabled/auto-sync-off branch of `syncApplication` in equational
form. -/
theorem syncApplication_skip_eq (cfg : Config) (app : Application) (env : SyncEnv)
    (h : app.enabled = false ∨ app.autoSync = false) :
    syncApplication cfg app env = (⟨app.name, true, none, some "skip", false⟩, []) := by
  rcases h with h | h <;>
    simp [syncApplication, h, SyncResult.new, SyncResult.markSuccess]

/-! ## Claim C1 -/

/-- C1 (amended): every subprocess launched by the current sync service
(src/gitops/sync-service/sync.js) is spawned with a program name plus an
argument vector and no shell; the legacy sync-service variant kept at
src/unnamed/part_004 instead launches helm through a shell on a command
string concatenated from configuration-derived values. -/
theorem C1_spawn_modes :
    (∀ (cfg : Config) (app : Application) (c : SpawnCall),
        c ∈ syncJsSpawnCalls cfg app → c.mode = SpawnMode.argv) ∧
    (∀ (app : Application) (cp : String) (dr : Bool),
        (part004HelmInstallCall app cp dr).mode = SpawnMode.shell) := by
  constructor
  · intro cfg app c hc
    simp only [syncJsSpawnCalls, List.mem_cons, List.not_mem_nil, or_false] at hc
    rcases hc with rfl | rfl | rfl | rfl | rfl | rfl | rfl | rfl | rfl | rfl | rfl <;> rfl
  · intro app cp dr
    rfl

/-- C1 witness: a concrete call of the current sync service (the
`git clean -fd` of `updateRepository`) is in the call inventory and is
argv-mode. -/
theorem C1_spawn_modes_witness :
    gitCleanCall ∈ syncJsSpawnCalls exCfgPlain exApp ∧
      gitCleanCall.mode = SpawnMode.argv :=
  ⟨by decide, C1_spawn_modes.1 exCfgPlain exApp gitCleanCall (by decide)⟩

/-- C1 counterexample: the claim quantifies over every code path of the
sync service, and its cited source includes `helmInstall` of
src/unnamed/part_004 — which, at the spec's own S1 configuration,
launches a shell on a single command string in which the
configuration-derived name, chart path, namespace and value file are
concatenated with space separators.  So not every subprocess launch is
an argv-vector spawn without a shell. -/
theorem C1_shell_counterexample :
    (part004HelmInstallCall exApp (chartPathOf exApp) false).mode = SpawnMode.shell ∧
    part004HelmInstallCommand exApp (chartPathOf exApp) false =
      "helm install intervalai /tmp/gitops-repo/helm-charts/intervalai -n default -f /tmp/gitops-repo/helm-charts/intervalai/values.yaml  --create-namespace --wait" := by
  exact ⟨rfl, by decide⟩

/-! ## Claim C7 -/

/-- C7: an application with `enabled=false` or `autoSync=false` yields a
`SyncResult` with `action=skip` and `success=true`, no recorded error,
no rollback, and an empty subprocess-launch list (no side effects, the
subprocess runner is never invoked). -/
theorem C7_skip_purity (cfg : Config) (app : Application) (env : SyncEnv)
    (h : app.enabled = false ∨ app.autoSync = false) :
    (syncApplication cfg app env).1.action = some "skip" ∧
    (syncApplication cfg app env).1.success = true ∧
    (syncApplication cfg app env).1.errorMessage = none ∧
    (syncApplication cfg app env).1.rolledBack = false ∧
    (syncApplication cfg app env).2 = [] := by
  rw [syncApplication_skip_eq cfg app env h]
  exact ⟨rfl, rfl, rfl, rfl, rfl⟩

/-- C7 witness: the disabled-auto-sync application `dashboard` is
skipped with no subprocess launched. -/
theorem C7_skip_purity_witness :
    (exAppOff.enabled = false ∨ exAppOff.autoSync = false) ∧
    ((syncApplication exCfgPlain exAppOff okEnv).1.action = some "skip" ∧
     (syncApplication exCfgPlain exAppOff okEnv).1.success = true ∧
     (syncApplication exCfgPlain exAppOff okEnv).1.errorMessage = none ∧
     (syncApplication exCfgPlain exAppOff okEnv).1.rolledBack = false ∧
     (syncApplication exCfgPlain exAppOff okEnv).2 = []) :=
  ⟨by decide, C7_skip_purity exCfgPlain exAppOff okEnv (by decide)⟩

/-! ## Claim C10 -/

/-- The results of any summary `syncAll` hands back are either empty or
exactly the per-application `syncApplication` outcomes of the cycle. -/
theorem syncAll_results_provenance (cfg : Config) (st : EngineState) (env : CycleEnv)
    (s : SyncCycleSummary) (hs : (syncAll cfg st env).2.1 = some s) :
    s.results = [] ∨ s.results = (cfg.applications.enum).map
      (fun p => (syncApplication cfg p.2 (env.appEnv p.1)).1) := by
  unfold syncAll at hs
  split at hs
  · simp at hs
  · split at hs
    · simp at hs
      left
      rw [← hs]
    · dsimp only at hs
      split at hs
      · simp at hs
        left
        rw [← hs]
      · simp at hs
        right
        rw [← hs]

/-- C10: in every summary a cycle seals, a `SyncResult` with
`action=skip` has `success=true` (so skips land in the successful
count), and the successful count plus the failed count equals the total
number of results. -/
theorem C10_summary_invariants (cfg : Config) (st : EngineState) (env : CycleEnv)
    (s : SyncCycleSummary) (hs : (syncAll cfg st env).2.1 = some s) :
    (∀ r ∈ s.results, r.action = some "skip" → r.success = true) ∧
    s.getSuccessCount + s.getFailureCount = s.results.length := by
  constructor
  · intro r hr hskip
    rcases syncAll_results_provenance cfg st env s hs with h | h
    · rw [h] at hr
      simp at hr
    · rw [h] at hr
      simp only [List.mem_map] at hr
      obtain ⟨p, hp, rfl⟩ := hr
      exact syncApplication_skip_success cfg p.2 (env.appEnv p.1) hskip
  · show (s.results.filter (fun r => r.success)).length
        + (s.results.filter (fun r => !r.success)).length = s.results.length
    exact filter_split_length (fun r => r.success) s.results

/-- A two-application configuration whose second application has
auto-sync off, for exercising a mixed cycle. -/
def mixedCfg : Config :=
  ⟨exGit, ⟨"60s", none, false, false⟩, exHealthOff, [exApp, exAppOff]⟩

/-- Fresh engine state (first run, no commit recorded). -/
def stFresh : EngineState := ⟨none, false⟩

/-- A cycle environment where every subprocess succeeds and a first
commit is observed. -/
def freshEnv : CycleEnv := ⟨true, "abc", fun _ => okEnv⟩

/-- C10 witness: the mixed cycle's sealed summary (one upgrade success,
one skip) satisfies both invariants. -/
theorem C10_summary_invariants_witness :
    ((syncAll mixedCfg stFresh freshEnv).2.1 = some
        ⟨[⟨"intervalai", true, none, some "upgrade", false⟩,
          ⟨"dashboard", true, none, some "skip", false⟩]⟩) ∧
    ((∀ r ∈ (⟨[⟨"intervalai", true, none, some "upgrade", false⟩,
          ⟨"dashboard", true, none, some "skip", false⟩]⟩ : SyncCycleSummary).results,
        r.action = some "skip" → r.success = true) ∧
      SyncCycleSummary.getSuccessCount
          ⟨[⟨"intervalai", true, none, some "upgrade", false⟩,
            ⟨"dashboard", true, none, some "skip", false⟩]⟩
        + SyncCycleSummary.getFailureCount
          ⟨[⟨"intervalai", true, none, some "upgrade", false⟩,
            ⟨"dashboard", true, none, some "skip", false⟩]⟩
        = (⟨[⟨"intervalai", true, none, some "upgrade", false⟩,
            ⟨"dashboard", true, none, some "skip", false⟩]⟩ : SyncCycleSummary).results.length) :=
  ⟨by decide, C10_summary_invariants mixedCfg stFresh freshEnv _ (by decide)⟩

/-! ## Claim C2 -/

/-- A successful `validate` with kind `k8sName` certifies the name
predicate. -/
theorem validate_k8sName_ok {v fld r : String}
    (h : validate v "k8sName" fld = .ok r) : isValidK8sName v = true := by
  by_cases hv : v = ""
  · simp [validate, hv] at h
  · by_cases hk : isValidK8sName v
    · exact hk
    · simp [validate, hv, hk] at h

/-- A successful `validate` with kind `path` certifies the path
predicate. -/
theorem validate_path_ok {v fld r : String}
    (h : validate v "path" fld = .ok r) : isValidPath v = true := by
  by_cases hv : v = ""
  · simp [validate, hv] at h
  · by_cases hk : isValidPath v
    · exact hk
    · simp [validate, hv, hk] at h

/-- A successful per-application validation certifies name, namespace
and path. -/
theorem validateApp_ok {idx : Nat} {app : Application} {u : Unit}
    (h : validateApp idx app = .ok u) :
    isValidK8sName app.name = true ∧ isValidK8sName app.namespace_ = true ∧
      isValidPath app.path = true := by
  unfold validateApp at h
  dsimp only at h
  split at h
  · exact absurd h (by simp)
  · split at h
    · exact absurd h (by simp)
    · split at h
      · exact absurd h (by simp)
      · refine ⟨validate_k8sName_ok (by assumption), validate_k8sName_ok (by assumption),
          validate_path_ok (by assumption)⟩

/-- A successful application-list validation certifies every entry. -/
theorem validateApps_ok :
    ∀ (apps : List Application) (idx : Nat), validateApps idx apps = .ok () →
      ∀ app ∈ apps, isValidK8sName app.name = true ∧
        isValidK8sName app.namespace_ = true ∧ isValidPath app.path = true := by
  intro apps
  induction apps with
  | nil => intro idx h app hmem; simp at hmem
  | cons a l ih =>
    intro idx h app hmem
    unfold validateApps at h
    split at h
    · exact absurd h (by simp)
    · rcases List.mem_cons.mp hmem with rfl | hmem
      · exact validateApp_ok (by assumption)
      · exact ih (idx + 1) h app hmem

/-- A configuration the loader accepts has every application's name,
namespace and path accepted by the corresponding validator predicate. -/
theorem loadConfig_ok_valid {cfg c : Config} (h : loadConfig cfg = .ok c) :
    ∀ app ∈ cfg.applications, isValidK8sName app.name = true ∧
      isValidK8sName app.namespace_ = true ∧ isValidPath app.path = true := by
  unfold loadConfig at h
  split at h
  · exact absurd h (by simp)
  · split at h
    · exact absurd h (by simp)
    · exact validateApps_ok cfg.applications 0 (by assumption)

/-- An application name rejected by the K8s-name predicate makes
`loadConfig` fail, and then `init` spawns no subprocess at all. -/
theorem loadConfig_bad_name (cfg : Config)
    (hbad : ∃ app ∈ cfg.applications, isValidK8sName app.name = false) :
    (∃ e, loadConfig cfg = .error e) ∧ ∀ re, initSpawnCalls cfg re = [] := by
  obtain ⟨app, hmem, hname⟩ := hbad
  have herr : ∃ e, loadConfig cfg = .error e := by
    cases hlc : loadConfig cfg with
    | error e => exact ⟨e, rfl⟩
    | ok c =>
      have := (loadConfig_ok_valid hlc app hmem).1
      rw [hname] at this
      exact absurd this (by simp)
  refine ⟨herr, ?_⟩
  intro re
  obtain ⟨e, he⟩ := herr
  simp [initSpawnCalls, he]

set_option maxRecDepth 8000 in
/-- C2 (amended): a configuration containing an application whose name
is not a valid Kubernetes DNS label makes `loadConfig` fail and `init`
spawn nothing (for the S5 name `foo; rm -rf /` the error names the
offending field `applications[0].name`); and for every application
`name`, `namespace` and `path` field later passed to the release driver
or health prober, either the corresponding validator predicate accepted
it or the service failed to start.  (`valueFiles` entries carry no such
guarantee — see the counterexample.) -/
theorem C2_validation_totality :
    (∀ cfg : Config, (∃ app ∈ cfg.applications, isValidK8sName app.name = false) →
      (∃ e, loadConfig cfg = .error e) ∧ ∀ re, initSpawnCalls cfg re = []) ∧
    (loadConfig badNameCfg = .error
      "Configuration validation failed for application at index 0: Invalid applications[0].name: \"foo; rm -rf /\" - must match Kubernetes naming conventions (lowercase alphanumeric and hyphens only)") ∧
    (∀ cfg c : Config, loadConfig cfg = .ok c → ∀ app ∈ cfg.applications,
      isValidK8sName app.name = true ∧ isValidK8sName app.namespace_ = true ∧
        isValidPath app.path = true) :=
  ⟨loadConfig_bad_name, by decide, fun _ _ h => loadConfig_ok_valid h⟩

set_option maxRecDepth 8000 in
/-- C2 witness: the S5 injection config is rejected with no spawn, and a
well-formed config is accepted with all its driver-bound fields
validator-approved. -/
theorem C2_validation_totality_witness :
    ((∃ app ∈ badNameCfg.applications, isValidK8sName app.name = false) ∧
      (∃ e, loadConfig badNameCfg = .error e) ∧
      (∀ re, initSpawnCalls badNameCfg re = [])) ∧
    (loadConfig exCfgPlain = .ok exCfgPlain ∧
      ∀ app ∈ exCfgPlain.applications, isValidK8sName app.name = true ∧
        isValidK8sName app.namespace_ = true ∧ isValidPath app.path = true) :=
  ⟨⟨by decide, C2_validation_totality.1 badNameCfg (by decide)⟩,
    ⟨by decide, C2_validation_totality.2.2 exCfgPlain exCfgPlain (by decide)⟩⟩

set_option maxRecDepth 8000 in
/-- C2 counterexample: a `valueFiles` entry is an application field later
passed to the release driver, yet `loadConfig` accepts the configuration
without ever validating it: the entry `../secrets.yaml` fails every
validator predicate, the service still starts, and the derived `-f`
argv element even escapes the chart directory. -/
theorem C2_unvalidated_valuefile_counterexample :
    loadConfig vfCfg = .ok vfCfg ∧
    pathJoin (chartPathOf vfApp) "../secrets.yaml"
      ∈ helmInstallArgs vfApp (chartPathOf vfApp) vfCfg.sync.dryRun ∧
    isValidK8sName "../secrets.yaml" = false ∧
    isValidBranchName "../secrets.yaml" = false ∧
    isValidPath "../secrets.yaml" = false ∧
    pathJoin (chartPathOf vfApp) "../secrets.yaml"
      = "/tmp/gitops-repo/helm-charts/secrets.yaml" :=
  ⟨by decide, by decide, by decide, by decide, by decide, by decide⟩

/-! ## Claim C8 -/

/-- The j-th recorded sleep of the retry loop started at attempt `i` is
the delay computed for attempt `i + j`. -/
theorem healthLoop_sleeps_getD (ok : Nat → Bool) (d0 f dm : Nat) :
    ∀ (n i j : Nat), j < (healthLoop ok d0 f dm i n).sleeps.length →
      (healthLoop ok d0 f dm i n).sleeps.getD j 0 = healthDelay d0 f dm (i + j) := by
  intro n
  induction n with
  | zero => intro i j hj; simp [healthLoop] at hj
  | succ m ih =>
    intro i j hj
    by_cases hok : ok i
    · simp [healthLoop, hok] at hj
    · by_cases hm : m = 0
      · simp [healthLoop, hok, hm] at hj
      · simp only [healthLoop, hok, if_false, hm, Bool.false_eq_true] at hj ⊢
        cases j with
        | zero => simp
        | succ j =>
          simp only [List.length_cons, Nat.add_lt_add_iff_right] at hj
          simp only [List.getD_cons_succ]
          rw [ih (i + 1) j hj]
          congr 1
          omega

/-- With at least one attempt budgeted, exactly one fewer sleep than
attempts is performed: no sleep follows the final attempt. -/
theorem healthLoop_len (ok : Nat → Bool) (d0 f dm : Nat) :
    ∀ (n i : Nat), 1 ≤ n →
      (healthLoop ok d0 f dm i n).sleeps.length + 1 = (healthLoop ok d0 f dm i n).attempts := by
  intro n
  induction n with
  | zero => intro i h; omega
  | succ m ih =>
    intro i _
    by_cases hok : ok i
    · simp [healthLoop, hok]
    · by_cases hm : m = 0
      · simp [healthLoop, hok, hm]
      · have := ih (i + 1) (by omega)
        simp only [healthLoop, hok, hm, if_false, Bool.false_eq_true, List.length_cons]
        omega

/-- When every budgeted attempt fails, the loop reports failure after
exactly the budgeted number of attempts. -/
theorem healthLoop_all_fail (ok : Nat → Bool) (d0 f dm : Nat) :
    ∀ (n i : Nat), (∀ k, i ≤ k → k < i + n → ok k = false) →
      (healthLoop ok d0 f dm i n).passed = false ∧
        (healthLoop ok d0 f dm i n).attempts = n := by
  intro n
  induction n with
  | zero => intro i _; simp [healthLoop]
  | succ m ih =>
    intro i h
    have hok : ok i = false := h i (le_refl i) (by omega)
    by_cases hm : m = 0
    · simp [healthLoop, hok, hm]
    · have := ih (i + 1) (fun k hk1 hk2 => h k (by omega) (by omega))
      simp only [healthLoop, hok, hm, if_false, Bool.false_eq_true]
      exact ⟨this.1, by omega⟩

/-- With a positive budget at least one attempt is made. -/
theorem healthLoop_attempts_pos (ok : Nat → Bool) (d0 f dm : Nat) (n i : Nat) (h : 1 ≤ n) :
    1 ≤ (healthLoop ok d0 f dm i n).attempts := by
  cases n with
  | zero => omega
  | succ m =>
    by_cases hok : ok i
    · simp [healthLoop, hok]
    · by_cases hm : m = 0
      · simp [healthLoop, hok, hm]
      · simp [healthLoop, hok, hm]

/-- C8: in the health prober, for retries indexed from 1, the kth
inter-attempt sleep equals
`min(initialDelay * backoffFactor ^ (k - 1), maxDelay)` with the falsy
defaults 5000 ms, 2 and 60000 ms; no sleep follows the final attempt
(sleeps = attempts − 1); and when every budgeted attempt fails, the
prober fails with the error naming the application and the configured
number of attempts after making exactly that many attempts. -/
theorem C8_backoff_schedule (hc : HealthCheckConfig) (appName : String) (ok : Nat → Bool) :
    (∀ k, 1 ≤ k → k ≤ (runHealthCheck hc ok).sleeps.length →
      (runHealthCheck hc ok).sleeps.getD (k - 1) 0 =
        min (orDefault hc.initialDelay 5000 * orDefault hc.backoffFactor 2 ^ (k - 1))
          (orDefault hc.maxDelay 60000)) ∧
    (1 ≤ hc.retries →
      (runHealthCheck hc ok).sleeps.length + 1 = (runHealthCheck hc ok).attempts) ∧
    ((∀ k, k < hc.retries → ok k = false) →
      healthCheckResult hc appName ok = .error (healthErrorMsg appName hc.retries) ∧
      (runHealthCheck hc ok).attempts = hc.retries) := by
  refine ⟨?_, ?_, ?_⟩
  · intro k hk1 hk2
    have h := healthLoop_sleeps_getD ok (orDefault hc.initialDelay 5000)
      (orDefault hc.backoffFactor 2) (orDefault hc.maxDelay 60000) hc.retries 0 (k - 1)
      (by unfold runHealthCheck at hk2; omega)
    unfold runHealthCheck
    simpa [healthDelay] using h
  · intro h
    exact healthLoop_len ok _ _ _ hc.retries 0 h
  · intro h
    have hall := healthLoop_all_fail ok (orDefault hc.initialDelay 5000)
      (orDefault hc.backoffFactor 2) (orDefault hc.maxDelay 60000) hc.retries 0
      (fun k _ hk2 => h k (by omega))
    constructor
    · unfold healthCheckResult
      rw [show (runHealthCheck hc ok).passed = false from hall.1]
      simp
    · exact hall.2

/-- C8 witness: with 3 retries, the defaults and every attempt failing,
the sleeps are 5000 then 10000 ms (the spec's S4 values), sleeps =
attempts − 1, and the prober fails with the literal error message. -/
theorem C8_backoff_schedule_witness :
    (runHealthCheck exHealthOn (fun _ => false)).sleeps.getD 0 0 = 5000 ∧
    (runHealthCheck exHealthOn (fun _ => false)).sleeps.getD 1 0 = 10000 ∧
    (runHealthCheck exHealthOn (fun _ => false)).sleeps.length + 1 =
      (runHealthCheck exHealthOn (fun _ => false)).attempts ∧
    healthCheckResult exHealthOn "intervalai" (fun _ => false) =
      .error "Health check failed for intervalai after 3 attempts" := by
  have h := C8_backoff_schedule exHealthOn "intervalai" (fun _ => false)
  refine ⟨?_, ?_, h.2.1 (by decide), ?_⟩
  · have h1 := h.1 1 (by omega) (by decide)
    rw [show (1 : Nat) - 1 = 0 from rfl] at h1
    rw [h1]
    decide
  · have h2 := h.1 2 (by omega) (by decide)
    rw [show (2 : Nat) - 1 = 1 from rfl] at h2
    rw [h2]
    decide
  · have h3 := (h.2.2 (fun k _ => rfl)).1
    rw [h3]
    decide

/-! ## Claim C3 -/

/-- The rollback launch differs from the release-status launch. -/
theorem rollback_ne_status (app : Application) :
    helmRollbackCall app ≠ helmStatusCall app := by
  simp [helmRollbackCall, helmStatusCall]

/-- The rollback launch differs from the install launch. -/
theorem rollback_ne_install (app : Application) (cp : String) (dr : Bool) :
    helmRollbackCall app ≠ helmInstallCall app cp dr := by
  simp [helmRollbackCall, helmInstallCall, helmInstallArgs]

/-- The rollback launch differs from the upgrade launch. -/
theorem rollback_ne_upgrade (app : Application) (cp : String) (dr : Bool) :
    helmRollbackCall app ≠ helmUpgradeCall app cp dr := by
  simp [helmRollbackCall, helmUpgradeCall, helmUpgradeArgs]

/-- The rollback launch differs from the health-probe launch. -/
theorem rollback_ne_kubectl (app app2 : Application) :
    helmRollbackCall app ≠ kubectlWaitCall app2 := by
  simp [helmRollbackCall, kubectlWaitCall]

/-- The rollback launch never hides among the health-probe attempts. -/
theorem rollback_not_mem_replicate (app : Application) (n : Nat) :
    helmRollbackCall app ∉ List.replicate n (kubectlWaitCall app) := by
  simp [List.mem_replicate, rollback_ne_kubectl]

/-- C3 (amended): `syncApplication` attempts a rollback exactly when the
application is enabled with auto-sync on, `autoRollback` is configured,
the prior release-status check found an existing release, and the cycle
failed (the install/upgrade action failed, or it succeeded and the
enabled health check did not pass) — with no regard to the `dryRun`
flag.  In particular no rollback is ever attempted when no prior release
was found. -/
theorem C3_rollback_precondition (cfg : Config) (app : Application) (env : SyncEnv) :
    (helmRollbackCall app ∈ (syncApplication cfg app env).2) ↔
      (app.enabled = true ∧ app.autoSync = true ∧
        cfg.sync.autoRollback = true ∧ env.releaseExists = true ∧
        (env.actionOk = false ∨
          (cfg.healthCheck.enabled = true ∧
            (runHealthCheck cfg.healthCheck env.healthOk).passed = false))) := by
  cases hen : app.enabled <;> cases has : app.autoSync <;>
    cases hre : env.releaseExists <;> cases hao : env.actionOk <;>
    cases har : cfg.sync.autoRollback <;>
    cases hhe : cfg.healthCheck.enabled <;>
    cases hp : (runHealthCheck cfg.healthCheck env.healthOk).passed <;>
    simp_all [syncApplication, rollback_ne_status, rollback_ne_install,
      rollback_ne_upgrade, rollback_not_mem_replicate, rollback_ne_kubectl,
      List.mem_replicate]

/-- C3 counterexample: with `dryRun=true`, `autoRollback=true` and an
existing release, a failed action still triggers a rollback attempt —
the claim's third conjunct (the failed action was not a dry-run) is not
checked by the code. -/
theorem C3_dryrun_rollback_counterexample :
    dryRollbackCfg.sync.dryRun = true ∧
    helmRollbackCall exApp ∈ (syncApplication dryRollbackCfg exApp failEnv).2 :=
  ⟨rfl, by decide⟩

/-! ## Claim C4 -/

/-- C4 at its failing input: the `helm rollback` subprocess fails
(`rollbackOk = false`), yet the sealed result records `rolledBack=true`
and carries only the original action error — `rollback` catches its own
failure and returns normally, so the rollback-failure handler in
`syncApplication` can never run, and `SyncResult` has no field in which
a rollback error could be recorded. -/
theorem C4_rollback_error_swallowed :
    rollbackFailEnv.rollbackOk = false ∧
    (syncApplication rollbackCfg exApp rollbackFailEnv).1.rolledBack = true ∧
    (syncApplication rollbackCfg exApp rollbackFailEnv).1.errorMessage =
      some "Command helm exited with code 1" ∧
    helmRollbackCall exApp ∈ (syncApplication rollbackCfg exApp rollbackFailEnv).2 :=
  ⟨rfl, by decide, by decide, by decide⟩

/-! ## Claim C5 -/

/-- The health-probe launch differs from the release-status launch. -/
theorem kubectl_ne_status (app app2 : Application) :
    kubectlWaitCall app ≠ helmStatusCall app2 := by
  simp [kubectlWaitCall, helmStatusCall]

/-- The health-probe launch differs from the install launch. -/
theorem kubectl_ne_install (app app2 : Application) (cp : String) (dr : Bool) :
    kubectlWaitCall app ≠ helmInstallCall app2 cp dr := by
  simp [kubectlWaitCall, helmInstallCall]

/-- The health-probe launch differs from the upgrade launch. -/
theorem kubectl_ne_upgrade (app app2 : Application) (cp : String) (dr : Bool) :
    kubectlWaitCall app ≠ helmUpgradeCall app2 cp dr := by
  simp [kubectlWaitCall, helmUpgradeCall]

/-- The health-probe launch differs from the rollback launch. -/
theorem kubectl_ne_rollback (app app2 : Application) :
    kubectlWaitCall app ≠ helmRollbackCall app2 := by
  simp [kubectlWaitCall, helmRollbackCall]

/-- A positive retry budget guarantees at least one probe attempt. -/
theorem runHealthCheck_attempts_pos (hc : HealthCheckConfig) (ok : Nat → Bool)
    (h : 1 ≤ hc.retries) : 1 ≤ (runHealthCheck hc ok).attempts :=
  healthLoop_attempts_pos ok _ _ _ hc.retries 0 h

/-- C5 (amended): after a successful release action, `syncApplication`
invokes the health prober exactly when `healthCheck.enabled` is set —
including when the action was a dry-run (the code has no dry-run
suppression).  A successful action still counts as a success: with the
probe disabled, or with the probe passing, the sealed result is a
success carrying the install/upgrade action. -/
theorem C5_dry_run_probe (cfg : Config) (app : Application) (env : SyncEnv)
    (hen : app.enabled = true) (has : app.autoSync = true)
    (hao : env.actionOk = true) (hr : 1 ≤ cfg.healthCheck.retries) :
    ((kubectlWaitCall app ∈ (syncApplication cfg app env).2) ↔
      cfg.healthCheck.enabled = true) ∧
    (cfg.healthCheck.enabled = false →
      (syncApplication cfg app env).1.success = true ∧
      (syncApplication cfg app env).1.action =
        some (if env.releaseExists then "upgrade" else "install")) ∧
    (cfg.healthCheck.enabled = true →
      (runHealthCheck cfg.healthCheck env.healthOk).passed = true →
      (syncApplication cfg app env).1.success = true) := by
  have hpos := runHealthCheck_attempts_pos cfg.healthCheck env.healthOk hr
  cases hre : env.releaseExists <;>
    cases har : cfg.sync.autoRollback <;>
    cases hhe : cfg.healthCheck.enabled <;>
    cases hp : (runHealthCheck cfg.healthCheck env.healthOk).passed <;>
    simp_all [syncApplication, SyncResult.new, SyncResult.markSuccess, SyncResult.markFailure,
      kubectl_ne_status, kubectl_ne_install, kubectl_ne_upgrade, kubectl_ne_rollback,
      List.mem_replicate, Nat.one_le_iff_ne_zero]

/-- C5 witness: the dry-run-with-health-checks configuration satisfies
the hypotheses, and the probe is indeed launched. -/
theorem C5_dry_run_probe_witness :
    (exApp.enabled = true ∧ exApp.autoSync = true ∧ okEnv.actionOk = true ∧
      1 ≤ dryHealthCfg.healthCheck.retries) ∧
    (((kubectlWaitCall exApp ∈ (syncApplication dryHealthCfg exApp okEnv).2) ↔
        dryHealthCfg.healthCheck.enabled = true) ∧
      (dryHealthCfg.healthCheck.enabled = false →
        (syncApplication dryHealthCfg exApp okEnv).1.success = true ∧
        (syncApplication dryHealthCfg exApp okEnv).1.action =
          some (if okEnv.releaseExists then "upgrade" else "install")) ∧
      (dryHealthCfg.healthCheck.enabled = true →
        (runHealthCheck dryHealthCfg.healthCheck okEnv.healthOk).passed = true →
        (syncApplication dryHealthCfg exApp okEnv).1.success = true)) :=
  ⟨⟨rfl, rfl, rfl, by decide⟩,
    C5_dry_run_probe dryHealthCfg exApp okEnv rfl rfl rfl (by decide)⟩

/-- C5 counterexample: a successful dry-run action with health checks
enabled does invoke the health prober — the claim's suppression does not
exist in the code. -/
theorem C5_dryrun_probe_counterexample :
    dryHealthCfg.sync.dryRun = true ∧
    kubectlWaitCall exApp ∈ (syncApplication dryHealthCfg exApp okEnv).2 :=
  ⟨rfl, by decide⟩

/-! ## Claim C6 -/

/-- An element surviving `dropWhile` was in the original list. -/
theorem mem_of_mem_dropWhile {α : Type} (p : α → Bool) :
    ∀ (l : List α) (x : α), x ∈ l.dropWhile p → x ∈ l := by
  intro l
  induction l with
  | nil => intro x h; simp at h
  | cons a l ih =>
    intro x h
    rw [List.dropWhile_cons] at h
    by_cases hpa : p a
    · simp only [hpa, if_true] at h
      exact List.mem_cons_of_mem a (ih x h)
    · simp only [hpa, if_false] at h
      exact h

/-- `dropWhile` swallows a prefix on which the predicate holds. -/
theorem dropWhile_append_all {α : Type} (p : α → Bool) :
    ∀ (l1 l2 : List α), (∀ x ∈ l1, p x = true) →
      (l1 ++ l2).dropWhile p = l2.dropWhile p := by
  intro l1
  induction l1 with
  | nil => intro l2 _; simp
  | cons a l ih =>
    intro l2 h
    rw [List.cons_append, List.dropWhile_cons, if_pos (h a (by simp))]
    exact ih l2 (fun x hx => h x (by simp [hx]))

/-- A trace made of a task-free prefix followed by task returns and the
seal has no commit advance at or after the first task return. -/
theorem noAdvance_trace (pre : List CycleEvent) (apps : List Application)
    (hpre : ∀ x ∈ pre, isTaskReturn x = false) :
    noAdvanceFromFirstTask
      (pre ++ (apps.map (fun a => CycleEvent.taskReturn a.name) ++ [CycleEvent.seal])) := by
  intro e he
  rw [dropWhile_append_all _ pre _ (by intro x hx; simp [hpre x hx])] at he
  have hmem := mem_of_mem_dropWhile _ _ _ he
  rcases List.mem_append.mp hmem with h | h
  · obtain ⟨a, _, rfl⟩ := List.mem_map.mp h
    rfl
  · simp at h
    subst h
    rfl

/-- C6 (amended): a cycle that aborts during the Git refresh leaves the
engine's last-applied commit (indeed the whole engine state) unchanged;
and in every cycle trace the last-applied-commit write happens strictly
before any sync task returns — the commit is advanced inside
`checkForChanges`, before the per-application tasks are dispatched, not
after they have returned. -/
theorem C6_commit_advance (cfg : Config) (st : EngineState) (env : CycleEnv) :
    (env.refreshOk = false → (syncAll cfg st env).1 = st) ∧
    noAdvanceFromFirstTask (syncAll cfg st env).2.2 := by
  constructor
  · intro h
    cases hsp : st.syncInProgress <;> simp [syncAll, hsp, h]
  · cases hsp : st.syncInProgress
    case true =>
      have htr : (syncAll cfg st env).2.2 = [] := by simp [syncAll, hsp]
      rw [htr]
      intro e he
      simp [List.dropWhile] at he
    case false =>
      cases hok : env.refreshOk
      case false =>
        have htr : (syncAll cfg st env).2.2 = [CycleEvent.refresh] := by
          simp [syncAll, hsp, hok]
        rw [htr]
        intro e he
        simp [List.dropWhile, isTaskReturn] at he
      case true =>
        by_cases hskip : (!(checkForChanges st env.currentCommit).1
            && optTruthy (checkForChanges st env.currentCommit).2.lastCommit) = true
        · have htr : (syncAll cfg st env).2.2 = [CycleEvent.refresh, CycleEvent.readHead] := by
            simp [syncAll, hsp, hok, hskip]
          rw [htr]
          intro e he
          simp [List.dropWhile, isTaskReturn] at he
        · have htr : (syncAll cfg st env).2.2 =
              (([CycleEvent.refresh, CycleEvent.readHead] ++
                (if (checkForChanges st env.currentCommit).1 = true
                 then [CycleEvent.commitAdvance env.currentCommit] else [])) ++
                ((cfg.applications.map (fun a => CycleEvent.taskReturn a.name)) ++
                  [CycleEvent.seal])) := by
            simp [syncAll, hsp, hok, hskip]
          rw [htr]
          apply noAdvance_trace
          intro x hx
          rcases List.mem_append.mp hx with h | h
          · rcases List.mem_cons.mp h with rfl | h
            · rfl
            · rcases List.mem_cons.mp h with rfl | h
              · rfl
              · simp at h
          · split at h
            · simp at h
              subst h
              rfl
            · simp at h

/-- A cycle environment whose Git refresh fails. -/
def refreshFailEnv : CycleEnv := ⟨false, "bbb", fun _ => okEnv⟩

/-- C6 witness: an aborted refresh leaves the recorded engine state
untouched. -/
theorem C6_commit_advance_witness :
    refreshFailEnv.refreshOk = false ∧
    (syncAll exCfgPlain stRecorded refreshFailEnv).1 = stRecorded :=
  ⟨rfl, (C6_commit_advance exCfgPlain stRecorded refreshFailEnv).1 rfl⟩

/-- C6 counterexample: on a concrete changed-commit cycle the trace is
refresh, head-read, commit advance, task return, seal — the commit
advance (index 2) precedes the task return (index 3), so it is not the
case that the last-applied commit is updated only after all dispatched
sync tasks have returned. -/
theorem C6_advance_before_tasks_counterexample :
    ¬ advanceOnlyAfterTasks (syncAll exCfgPlain stRecorded changedEnv).2.2 := by
  intro h
  have htr : (syncAll exCfgPlain stRecorded changedEnv).2.2 =
      [CycleEvent.refresh, CycleEvent.readHead, CycleEvent.commitAdvance "bbb",
       CycleEvent.taskReturn "intervalai", CycleEvent.seal] := by decide
  rw [htr] at h
  have := h 2 3 (by decide) (by decide) (by decide) (by decide)
  omega

/-! ## Claim C9 -/

/-- C9 (amended): when the observed commit equals the recorded
last-applied commit (and one is recorded), the cycle performs only the
Git refresh and the commit comparison: no sync task is dispatched, the
engine state is unchanged, and the sealed summary contains no results at
all — 0 successful, 0 failed and 0 skipped (not one skip per configured
application). -/
theorem C9_noop_cycle (cfg : Config) (st : EngineState) (env : CycleEnv)
    (h1 : st.syncInProgress = false) (h2 : env.refreshOk = true)
    (h3 : env.currentCommit ≠ "") (h4 : st.lastCommit = some env.currentCommit) :
    syncAll cfg st env = (st, some ⟨[]⟩, [CycleEvent.refresh, CycleEvent.readHead]) ∧
    SyncCycleSummary.getSuccessCount ⟨[]⟩ = 0 ∧
    SyncCycleSummary.getFailureCount ⟨[]⟩ = 0 ∧
    SyncCycleSummary.getSkippedCount ⟨[]⟩ = 0 := by
  refine ⟨?_, rfl, rfl, rfl⟩
  have hcc : checkForChanges st env.currentCommit = (false, st) := by
    simp [checkForChanges, h4, optTruthy, h3]
  simp [syncAll, h1, h2, hcc, optTruthy, h4, h3]

/-- C9 witness: the unchanged-commit cycle on the concrete fixture. -/
theorem C9_noop_cycle_witness :
    (stRecorded.syncInProgress = false ∧ unchangedEnv.refreshOk = true ∧
      unchangedEnv.currentCommit ≠ "" ∧
      stRecorded.lastCommit = some unchangedEnv.currentCommit) ∧
    (syncAll exCfgPlain stRecorded unchangedEnv =
        (stRecorded, some ⟨[]⟩, [CycleEvent.refresh, CycleEvent.readHead]) ∧
      SyncCycleSummary.getSuccessCount ⟨[]⟩ = 0 ∧
      SyncCycleSummary.getFailureCount ⟨[]⟩ = 0 ∧
      SyncCycleSummary.getSkippedCount ⟨[]⟩ = 0) :=
  ⟨⟨rfl, rfl, by decide, rfl⟩,
    C9_noop_cycle exCfgPlain stRecorded unchangedEnv rfl rfl (by decide) rfl⟩

/-- C9 counterexample: with one configured application and an unchanged
commit, the sealed summary holds no results, so its skipped count is 0
rather than one skipped result per configured application. -/
theorem C9_empty_summary_counterexample :
    (syncAll exCfgPlain stRecorded unchangedEnv).2.1 = some ⟨[]⟩ ∧
    SyncCycleSummary.getSkippedCount ⟨[]⟩ = 0 ∧
    exCfgPlain.applications.length = 1 :=
  ⟨by decide, rfl, rfl⟩

end GitOpsSync
